import Mathlib

namespace Blinkenlights

/-!
Shallow embedding of the protocol/encoding core of the Blinkenlights web app
(src/WebApp/script.js, two in-repo variants of the script).  JavaScript strings
appear as Lean `String`s (and, for the line transformer, as `List Char`);
JavaScript numbers appear as `Nat`/`Int` where the code only manipulates
integers, and as `ℝ` (with `round = Int.round`) where the code computes with
`Math.round`, `**` and division.
-/

/-- Grid dimensions: `const COLS = 16; const ROWS = COLS;`. -/
def COLS : Nat := 16

/-- `const ROWS = COLS`. -/
def ROWS : Nat := COLS

/-- `writeToStream(...lines)` writes each line followed by `'\n'` to the
output stream, in order.  We model one call as the list of strings it puts on
the wire. -/
def writeToStream (lines : List String) : List String :=
  lines.map (fun line => line ++ "\n")

/-- `class Frame`: a duration in milliseconds and the already-encoded rows. -/
structure Frame where
  duration : Nat
  rows : List String

/-- `class Animation`: a hold duration and an ordered list of frames
(`addFrame` pushes at the end). -/
structure Animation where
  duration : Nat
  frames : List Frame

/-- `sendAnimation(anim)`: emit `ANM <duration>`, then for each frame
`FRM <duration>` and one `RGB <row>` line per encoded row, then `DON` and
`NXT`.  The result is the full sequence of strings written to the wire. -/
def sendAnimation (anim : Animation) : List String :=
  writeToStream ["ANM " ++ toString anim.duration]
    ++ anim.frames.flatMap (fun frame =>
        writeToStream ["FRM " ++ toString frame.duration]
          ++ frame.rows.flatMap (fun row => writeToStream ["RGB " ++ row]))
    ++ writeToStream ["DON", "NXT"]

/-- The list of lines the spec says a whole animation turns into. -/
def expectedWire (anim : Animation) : List String :=
  ("ANM " ++ toString anim.duration ++ "\n")
    :: (anim.frames.flatMap (fun f =>
          ("FRM " ++ toString f.duration ++ "\n")
            :: f.rows.map (fun row => "RGB " ++ row ++ "\n")))
    ++ ["DON\n", "NXT\n"]

/-- Lowercase hex digit characters, as produced by JavaScript
`Number.prototype.toString(16)`.  Only arguments below 16 occur. -/
def hexDigitChar : Nat → Char
  | 0 => '0' | 1 => '1' | 2 => '2' | 3 => '3' | 4 => '4'
  | 5 => '5' | 6 => '6' | 7 => '7' | 8 => '8' | 9 => '9'
  | 10 => 'a' | 11 => 'b' | 12 => 'c' | 13 => 'd' | 14 => 'e'
  | _ => 'f'

/-- JavaScript `n.toString(16)` for a nonnegative integer: most significant
digit first, no leading zeros, `"0"` for zero. -/
def toHexChars (n : Nat) : List Char :=
  if n < 16 then [hexDigitChar n]
  else toHexChars (n / 16) ++ [hexDigitChar (n % 16)]
termination_by n
decreasing_by exact Nat.div_lt_self (by omega) (by omega)

/-- JavaScript `s.padStart(width, c)` for a one-character pad string. -/
def jsPadStart (s : List Char) (width : Nat) (c : Char) : List Char :=
  List.replicate (width - s.length) c ++ s

/-- `paddedHex(number, width)`:
`number.toString(16).padStart(width, '0').toUpperCase()`. -/
def paddedHex (number width : Nat) : List Char :=
  (jsPadStart (toHexChars number) width '0').map Char.toUpper

/-- `gammaTable[r] << 16 | gammaTable[g] << 8 | gammaTable[b]` for one pixel. -/
def packPixel (gt : List Nat) (p : Nat × Nat × Nat) : Nat :=
  (gt.getD p.1 0) <<< 16 ||| (gt.getD p.2.1 0) <<< 8 ||| (gt.getD p.2.2 0)

/-- One encoded row of the `Frame` constructor: the 6-digit padded-hex groups
of the row's pixels, concatenated (`.join('')`). -/
def rowChars (gt : List Nat) (row : List (Nat × Nat × Nat)) : List Char :=
  (row.map (fun p => paddedHex (packPixel gt p) 6)).flatten

/-- The `rows` field computed by the `Frame` constructor from a pixel grid. -/
def frameRows (gt : List Nat) (pixels : List (List (Nat × Nat × Nat))) : List String :=
  pixels.map (fun row => ⟨rowChars gt row⟩)

/-- The `Frame` constructor: `new Frame(ms, pixels)`. -/
def mkFrame (gt : List Nat) (ms : Nat) (pixels : List (List (Nat × Nat × Nat))) : Frame :=
  ⟨ms, frameRows gt pixels⟩

/-- The sixteen uppercase hexadecimal digit characters. -/
def upperHexDigits : List Char :=
  ['0', '1', '2', '3', '4', '5', '6', '7', '8', '9', 'A', 'B', 'C', 'D', 'E', 'F']

/-- Numeric value of a hex digit character (either case). -/
def hexCharVal : Char → Nat
  | '0' => 0 | '1' => 1 | '2' => 2 | '3' => 3 | '4' => 4
  | '5' => 5 | '6' => 6 | '7' => 7 | '8' => 8 | '9' => 9
  | 'a' => 10 | 'b' => 11 | 'c' => 12 | 'd' => 13 | 'e' => 14 | 'f' => 15
  | 'A' => 10 | 'B' => 11 | 'C' => 12 | 'D' => 13 | 'E' => 14 | 'F' => 15
  | _ => 0

/-- Value denoted by a big-endian string of hex digit characters. -/
def hexValue (s : List Char) : Nat :=
  s.foldl (fun acc c => 16 * acc + hexCharVal c) 0

/-! ## Line Transformer (inbound line framing)

JavaScript strings are modelled as `List Char` here, so that the splitting
recursion is structural.  `jsSplit` is `String.prototype.split` for a
one-character separator (the `'\n'` variant of `LineBreakTransformer`):
leftmost splitting, always at least one resulting segment. -/

def jsSplit (sep : Char) : List Char → List (List Char)
  | [] => [[]]
  | c :: rest =>
      if c = sep then [] :: jsSplit sep rest
      else
        match jsSplit sep rest with
        | [] => [[c]]
        | s :: ss => (c :: s) :: ss

/-- One `transform(chunk, controller)` step: append the chunk to the
container, split, keep the popped last segment as the new container and emit
the rest. -/
def lbtTransform (sep : Char) (container chunk : List Char) :
    List (List Char) × List Char :=
  ((jsSplit sep (container ++ chunk)).dropLast,
    (jsSplit sep (container ++ chunk)).getLastD [])

/-- Feed a list of chunks through the transformer, collecting the emitted
lines and the final container. -/
def lbtRun (sep : Char) : List Char → List (List Char) → List (List Char) × List Char
  | cont, [] => ([], cont)
  | cont, chunk :: rest =>
      ((lbtTransform sep cont chunk).1
          ++ (lbtRun sep (lbtTransform sep cont chunk).2 rest).1,
        (lbtRun sep (lbtTransform sep cont chunk).2 rest).2)

/-- A whole session: start with an empty container, feed every chunk, then
`flush(controller)`, which enqueues the container (even when empty). -/
def lbtSession (sep : Char) (chunks : List (List Char)) : List (List Char) :=
  (lbtRun sep [] chunks).1 ++ [(lbtRun sep [] chunks).2]

/-- The N lines joined by the delimiter (the session's conceptual input). -/
def joinSep (sep : Char) : List (List Char) → List Char
  | [] => []
  | [l] => l
  | l :: rest => l ++ sep :: joinSep sep rest

/-! ## Gamma tables

JavaScript numbers in `updateGamma` are modelled as real numbers and
`Math.round` as `round : ℝ → ℤ`. -/

noncomputable section

/-- `const MIN_GAMMA = 0.5`. -/
def MIN_GAMMA : ℝ := 0.5

/-- `const MAX_GAMMA = 3.0`. -/
def MAX_GAMMA : ℝ := 3.0

/-- `gammaValueFromSlider(v)`: `MIN_GAMMA + v*(MAX_GAMMA-MIN_GAMMA)/100.0`. -/
def gammaValueFromSlider (v : ℝ) : ℝ := MIN_GAMMA + v * (MAX_GAMMA - MIN_GAMMA) / 100

/-- `sliderValueFromGamma(g)`: `(g-MIN_GAMMA)*100.0/(MAX_GAMMA-MIN_GAMMA)`. -/
def sliderValueFromGamma (g : ℝ) : ℝ := (g - MIN_GAMMA) * 100 / (MAX_GAMMA - MIN_GAMMA)

/-- The table shape shared by both `updateGamma` variants:
`Array.from(Array(256), () => Math.round(255*((i++/255.0)**e)))`
with exponent `e`. -/
def gammaTableOf (e : ℝ) : List ℤ :=
  (List.range 256).map (fun i : ℕ => round ((255 : ℝ) * ((i : ℝ) / 255) ^ e))

/-- Variant 1 `updateGamma()`: exponent `gammaValueFromSlider(gammaSlider.value)`. -/
def updateGamma1 (v : ℝ) : List ℤ := gammaTableOf (gammaValueFromSlider v)

/-- Variant 2 `updateGamma()`: exponent `invGamma = 100.0/gammaSlider.value`. -/
def updateGamma2 (v : ℝ) : List ℤ := gammaTableOf (100 / v)

end

/-- Variant 1's table as a function of the gamma value its UI displays
(`gammaDisplay` shows `gammaValueFromSlider(gammaSlider.value)`). -/
noncomputable def displayedTable1 (g : ℝ) : List ℤ :=
  updateGamma1 (sliderValueFromGamma g)

/-- Variant 2's table as a function of the gamma value its UI displays
(`updateSliderDisplay` shows `slider.value/100.0`, so displayed `g` means
slider value `100*g`). -/
noncomputable def displayedTable2 (g : ℝ) : List ℤ :=
  updateGamma2 (100 * g)

/-- The convention C5 claims: as functions of the *displayed* gamma value,
both observed builders compute entry `i` as `round(255*(i/255)^g)`. -/
def gammaConventionConsistent : Prop :=
  ∀ g : ℝ, 0 < g → ∀ i : ℕ, i < 256 →
    (displayedTable1 g).getD i 0 = round ((255 : ℝ) * ((i : ℝ) / 255) ^ g) ∧
      (displayedTable2 g).getD i 0 = round ((255 : ℝ) * ((i : ℝ) / 255) ^ g)

/-! ## GIF sending (`sendGifAnimation`, variant 1) -/

/-- One decompressed GIF frame as used by `sendGifAnimation`: the patch
rectangle (`dims`), the flat RGBA byte array (`patch`) and the optional
per-frame delay. -/
structure GifFrame where
  top : Nat
  left : Nat
  width : Nat
  height : Nat
  patch : List Nat
  delay : Option Nat

/-- A parsed GIF: logical screen descriptor dimensions and frames. -/
structure Gif where
  lsdWidth : Nat
  lsdHeight : Nat
  frames : List GifFrame

/-- The mutable `pixels` grid: a cell is either a pixel triple or `none`,
which stands for a cell holding the JavaScript number `0` (the value
`row.fill(0)` writes) or `undefined`. -/
def GifGrid : Type := Nat → Nat → Option (Nat × Nat × Nat)

/-- `[bitmap[offset], bitmap[offset+1], bitmap[offset+2]]` with
`offset = (r * width + c) * 4`. -/
def patchPixel (f : GifFrame) (pr pc : Nat) : Nat × Nat × Nat :=
  (f.patch.getD ((pr * f.width + pc) * 4) 0,
    f.patch.getD ((pr * f.width + pc) * 4 + 1) 0,
    f.patch.getD ((pr * f.width + pc) * 4 + 2) 0)

/-- One iteration of the `frames.forEach` loop in `sendGifAnimation`:
`pixels.forEach(row => row.fill(0))` clears every cell, then the patch is
written at its top/left offset.  The previous grid is therefore ignored. -/
def gifStep (_prev : GifGrid) (f : GifFrame) : GifGrid :=
  fun r c =>
    if f.top ≤ r ∧ r < f.top + f.height ∧ f.left ≤ c ∧ c < f.left + f.width then
      some (patchPixel f (r - f.top) (c - f.left))
    else
      none

/-- The grid contents after the loop has processed the given frames. -/
def gifGridAfter (frames : List GifFrame) : GifGrid :=
  frames.foldl gifStep (fun _ _ => none)

/-- Materialise a 16×16 grid for hex encoding.  A cleared cell is rendered as
the zero triple here; at runtime the `Frame` constructor's `[r, g, b]`
destructuring of such a cell (the number `0`) would throw, which none of the
checked claims exercises. -/
def gridToLists (g : GifGrid) : List (List (Nat × Nat × Nat)) :=
  (List.range ROWS).map (fun r => (List.range COLS).map (fun c => (g r c).getD (0, 0, 0)))

/-- The `Frame`s accumulated by `animation.addFrame(new Frame('delay' in
gifFrame ? gifFrame.delay : 1000, pixels))` across the loop. -/
def gifFramesAux (gt : List Nat) : GifGrid → List GifFrame → List Frame
  | _, [] => []
  | g, f :: rest =>
      mkFrame gt (f.delay.getD 1000) (gridToLists (gifStep g f))
        :: gifFramesAux gt (gifStep g f) rest

/-- `sendGifAnimation(img)`: return (no traffic) unless the logical screen
descriptor is exactly `ROWS × COLS`, else build `new Animation(600000)` from
the decompressed frames and send it. -/
def sendGifAnimation (gif : Gif) (gt : List Nat) : List String :=
  if gif.lsdWidth ≠ ROWS ∨ gif.lsdHeight ≠ COLS then []
  else sendAnimation ⟨600000, gifFramesAux gt (fun _ _ => none) gif.frames⟩

/-- The compositing C9's claim (and the GIF disposal model) describes: draw
the patch onto the PREVIOUS grid state, cells outside the patch keep their
previous content.  Stated from the spec's words, for comparison with
`gifStep`. -/
def specCompositeStep (g : GifGrid) (f : GifFrame) : GifGrid :=
  fun r c =>
    if f.top ≤ r ∧ r < f.top + f.height ∧ f.left ≤ c ∧ c < f.left + f.width then
      some (patchPixel f (r - f.top) (c - f.left))
    else
      g r c

/-- Grid contents under the spec-claimed compositing. -/
def specCompositeAfter (frames : List GifFrame) : GifGrid :=
  frames.foldl specCompositeStep (fun _ _ => none)

/-- A full-screen 16×16 patch whose bytes are all 1. -/
def gifFullFrame : GifFrame := ⟨0, 0, 16, 16, List.replicate 1024 1, some 100⟩

/-- A 1×1 patch at (5, 5). -/
def gifDotFrame : GifFrame := ⟨5, 5, 1, 1, [9, 9, 9, 255], some 100⟩

/-! ## Static image sending (`sendImage`, variant 2) -/

/-- The canvas after `ctx.drawImage(img, 0, 0)` on the 16×16
`OffscreenCanvas`: inside the image's bounds the image pixel, outside it
transparent black. -/
def canvasPixel (w h : Nat) (imgPixel : Nat → Nat → Nat × Nat × Nat)
    (r c : Nat) : Nat × Nat × Nat :=
  if r < h ∧ c < w then imgPixel r c else (0, 0, 0)

/-- One row of `sendImage`:
`pix.push((gammaTable[..]<<16 | ... ).toString(16).padStart(6, "0"))` per
column, then `pix.join('').toUpperCase()`. -/
def sendImageRowChars (gt : List Nat) (w h : Nat)
    (imgPixel : Nat → Nat → Nat × Nat × Nat) (r : Nat) : List Char :=
  (((List.range COLS).map (fun c =>
      jsPadStart (toHexChars (packPixel gt (canvasPixel w h imgPixel r c))) 6 '0')).flatten).map
    Char.toUpper

/-- `sendImage(img)`: draw the image on the canvas, then unconditionally
write `ANM 600000`, `FRM 1000`, 16 `RGB` rows sampled from the canvas, `DON`
and `NXT`.  There is no dimension check on this path. -/
def sendImage (w h : Nat) (imgPixel : Nat → Nat → Nat × Nat × Nat)
    (gt : List Nat) : List String :=
  writeToStream ["ANM 600000", "FRM 1000"]
    ++ (List.range ROWS).flatMap (fun r =>
        writeToStream ["RGB " ++ String.mk (sendImageRowChars gt w h imgPixel r)])
    ++ writeToStream ["DON", "NXT"]

/-! ## Connection lifecycle (`disconnect`) -/

/-- The script's connection handles; `true` means the handle is set, `false`
that it is `null` (their initial and post-disconnect value). -/
structure SessionState where
  port : Bool
  reader : Bool
  inputDone : Bool
  outputStream : Bool
  outputDone : Bool
deriving DecidableEq

/-- The only failure mode the model needs: dereferencing a `null` handle. -/
inductive JsError where
  | typeError
deriving DecidableEq

/-- `writeToStream` starts with `outputStream.getWriter()`, which throws a
TypeError when `outputStream` is `null`. -/
def writeToStreamSt (st : SessionState) (lines : List String) :
    Except JsError (List String) :=
  if st.outputStream then .ok (writeToStream lines) else .error .typeError

/-- `disconnect()`: `writeToStream('RST')`; if `reader` is set, cancel it
(the cancellation rejection is swallowed by `.catch(() => {})`) and null
`reader`/`inputDone`; if `outputStream` is set, close it and null
`outputStream`/`outputDone`; finally `port.close()` — a throw when `port` is
`null` — and null `port`. -/
def disconnect (st : SessionState) : Except JsError SessionState :=
  match writeToStreamSt st ["RST"] with
  | .error e => .error e
  | .ok _ =>
      let st1 := if st.reader then
        { st with reader := false, inputDone := false } else st
      let st2 := if st1.outputStream then
        { st1 with outputStream := false, outputDone := false } else st1
      if st2.port then .ok { st2 with port := false } else .error .typeError

/-- All handles attached, as after a successful `connect()`. -/
def connectedState : SessionState := ⟨true, true, true, true, true⟩

/-- All handles `null`, as after a successful `disconnect()`. -/
def clearedState : SessionState := ⟨false, false, false, false, false⟩

/-! ## Color correction (`updateColorCorrection`, variant 2) -/

/-- `Math.round(2.55 * slider.value)` for one color-correction slider. -/
noncomputable def ccByte (v : ℕ) : ℤ := round ((2.55 : ℝ) * v)

/-- One channel of `updateColorCorrection`:
`Math.round(2.55*v).toString(16).padStart('0', 2)`.  The `padStart` arguments
are swapped: JavaScript coerces the target length `'0'` to `0` and would
stringify `2` as the pad text, so the call pads to width 0 — it never adds
any padding. -/
noncomputable def ccChannel (v : ℕ) : List Char :=
  jsPadStart (toHexChars (ccByte v).toNat) 0 '2'

/-- `updateColorCorrection()`:
`'CLC ' + (red + green + blue).toUpperCase()`. -/
noncomputable def updateColorCorrection (red green blue : ℕ) : String :=
  "CLC " ++ String.mk ((ccChannel red ++ ccChannel green ++ ccChannel blue).map Char.toUpper)

/-! ## Digit clock (`digitalClockIterator`, `drawClockMinute`) -/

/-- `const DIGIT_ROWS = 5`. -/
def DIGIT_ROWS : Nat := 5

/-- `const CLOCK_VERTICAL_OFFSET = 5`. -/
def CLOCK_VERTICAL_OFFSET : Nat := 5

/-- The per-digit 5×3 glyph table. -/
def Digits : List (List (List Nat)) :=
  [[[1,1,1],[1,0,1],[1,0,1],[1,0,1],[1,1,1]],
   [[0,1,0],[1,1,0],[0,1,0],[0,1,0],[1,1,1]],
   [[1,1,0],[0,0,1],[0,1,0],[1,0,0],[1,1,1]],
   [[1,1,1],[0,0,1],[0,1,1],[0,0,1],[1,1,1]],
   [[1,0,1],[1,0,1],[1,1,1],[0,0,1],[0,0,1]],
   [[1,1,1],[1,0,0],[1,1,0],[0,0,1],[1,1,0]],
   [[1,1,1],[1,0,0],[1,1,1],[1,0,1],[1,1,1]],
   [[1,1,1],[0,0,1],[0,1,0],[0,1,0],[0,1,0]],
   [[1,1,1],[1,0,1],[1,1,1],[1,0,1],[1,1,1]],
   [[1,1,1],[1,0,1],[1,1,1],[0,0,1],[1,1,1]]]

/-- `fillRowIterator(color)`: `COLS` copies of one color, materialised. -/
def fillRow {α : Type} (color : α) : List α := List.replicate COLS color

/-- `bitmapRowIterator(row, fg, bg)`: `row[i] ? fg : bg` per glyph bit. -/
def bitmapRow {α : Type} (row : List Nat) (fg bg : α) : List α :=
  row.map (fun b => if b = 0 then bg else fg)

/-- `digitRowIterator(row, h10, h1, m10, m1, fg, bg, colon)`: the four glyph
rows with a one-column gap around the two-column colon, whose color is
`colon` on odd rows and `bg` on even rows. -/
def digitRow {α : Type} (row h10 h1 m10 m1 : Nat) (fg bg colon : α) : List α :=
  bitmapRow ((Digits.getD h10 []).getD row []) fg bg
    ++ [bg]
    ++ bitmapRow ((Digits.getD h1 []).getD row []) fg bg
    ++ [if row % 2 = 0 then bg else colon, if row % 2 = 0 then bg else colon]
    ++ bitmapRow ((Digits.getD m10 []).getD row []) fg bg
    ++ [bg]
    ++ bitmapRow ((Digits.getD m1 []).getD row []) fg bg

/-- `digitalClockIterator(...)`, materialised: `CLOCK_VERTICAL_OFFSET`
background rows, the `DIGIT_ROWS` digit rows, then background rows filling
the remaining `ROWS - (CLOCK_VERTICAL_OFFSET + DIGIT_ROWS)` rows. -/
def digitalClockGrid {α : Type} (h10 h1 m10 m1 : Nat) (fg bg colon : α) :
    List (List α) :=
  (List.range CLOCK_VERTICAL_OFFSET).map (fun _ => fillRow bg)
    ++ (List.range DIGIT_ROWS).map (fun r => digitRow r h10 h1 m10 m1 fg bg colon)
    ++ (List.range (ROWS - (CLOCK_VERTICAL_OFFSET + DIGIT_ROWS))).map (fun _ => fillRow bg)

/-- `drawClockMinute` renders the same digits twice: once with the colon
color and once with the background in its place. -/
def drawClockMinuteGrids {α : Type} (h10 h1 m10 m1 : Nat) (fg bg colon : α) :
    List (List α) × List (List α) :=
  (digitalClockGrid h10 h1 m10 m1 fg bg colon,
    digitalClockGrid h10 h1 m10 m1 fg bg bg)

theorem wire_flatMap_singleton {α : Type} (g : α → String) (l : List α) :
    (l.flatMap fun x => writeToStream [g x]) = l.map (fun x => g x ++ "\n") := by
  induction l with
  | nil => rfl
  | cons a l ih =>
      simp only [List.flatMap_cons, ih]
      simp [writeToStream]

theorem sendAnimation_eq_expectedWire (anim : Animation) :
    sendAnimation anim = expectedWire anim := by
  simp only [sendAnimation, expectedWire, wire_flatMap_singleton]
  simp [writeToStream]

theorem expectedWire_length (anim : Animation)
    (hrows : ∀ f ∈ anim.frames, f.rows.length = 16) :
    (expectedWire anim).length = 1 + anim.frames.length * (1 + 16) + 2 := by
  have h1 : (anim.frames.flatMap (fun f =>
      ("FRM " ++ toString f.duration ++ "\n")
        :: f.rows.map (fun row => "RGB " ++ row ++ "\n"))).length
      = anim.frames.length * 17 := by
    rw [List.length_flatMap]
    have h2 : (anim.frames.map (List.length ∘ fun f =>
        ("FRM " ++ toString f.duration ++ "\n")
          :: f.rows.map (fun row => "RGB " ++ row ++ "\n"))) =
        anim.frames.map (fun _ => 17) := by
      apply List.map_congr_left
      intro f hf
      simp [hrows f hf]
    rw [h2, List.map_const', List.sum_replicate, smul_eq_mul, mul_comm]
  simp only [expectedWire, List.length_cons, List.length_append, h1]
  simp
  omega

theorem hexCharVal_toUpper_hexDigitChar (d : Nat) (hd : d < 16) :
    hexCharVal (Char.toUpper (hexDigitChar d)) = d := by
  interval_cases d <;> decide

theorem toUpper_hexDigitChar_mem (d : Nat) (hd : d < 16) :
    Char.toUpper (hexDigitChar d) ∈ upperHexDigits := by
  interval_cases d <;> decide

theorem toHexChars_length_le (n : Nat) :
    ∀ k : Nat, 0 < k → n < 16 ^ k → (toHexChars n).length ≤ k := by
  induction n using Nat.strong_induction_on with
  | _ n ih =>
    intro k hk hn
    rw [toHexChars]
    split
    · simpa using hk
    · rename_i h
      push_neg at h
      have hk2 : 2 ≤ k := by
        by_contra hc
        have hk1 : k = 1 := by omega
        rw [hk1] at hn
        simp at hn
        omega
      have hpow : 16 ^ k = 16 * 16 ^ (k - 1) := by
        rw [← pow_succ']
        congr 1
        omega
      have hdiv : n / 16 < 16 ^ (k - 1) := by
        apply Nat.div_lt_of_lt_mul
        omega
      have hrec := ih (n / 16) (Nat.div_lt_self (by omega) (by omega))
        (k - 1) (by omega) hdiv
      simp only [List.length_append, List.length_cons, List.length_nil]
      omega

theorem hexValue_append_singleton (xs : List Char) (c : Char) :
    hexValue (xs ++ [c]) = 16 * hexValue xs + hexCharVal c := by
  simp [hexValue, List.foldl_append]

theorem hexValue_map_toUpper_toHexChars (n : Nat) :
    hexValue ((toHexChars n).map Char.toUpper) = n := by
  induction n using Nat.strong_induction_on with
  | _ n ih =>
    rw [toHexChars]
    split
    · rename_i h
      simp [hexValue, hexCharVal_toUpper_hexDigitChar n h]
    · rename_i h
      push_neg at h
      rw [List.map_append, List.map_singleton, hexValue_append_singleton,
        ih (n / 16) (Nat.div_lt_self (by omega) (by omega)),
        hexCharVal_toUpper_hexDigitChar (n % 16) (Nat.mod_lt n (by omega))]
      omega

theorem hexValue_replicate_zero_append (k : Nat) (t : List Char) :
    hexValue (List.replicate k '0' ++ t) = hexValue t := by
  induction k with
  | zero => simp
  | succ k ih =>
      rw [List.replicate_succ, List.cons_append]
      simpa [hexValue] using ih

theorem toHexChars_mem_upper (n : Nat) :
    ∀ c ∈ toHexChars n, Char.toUpper c ∈ upperHexDigits := by
  induction n using Nat.strong_induction_on with
  | _ n ih =>
    intro c hc
    rw [toHexChars] at hc
    split at hc
    · rename_i h
      simp at hc
      subst hc
      exact toUpper_hexDigitChar_mem n h
    · rename_i h
      push_neg at h
      rcases List.mem_append.mp hc with h1 | h1
      · exact ih (n / 16) (Nat.div_lt_self (by omega) (by omega)) c h1
      · simp at h1
        subst h1
        exact toUpper_hexDigitChar_mem (n % 16) (Nat.mod_lt n (by omega))

/-- For values below `16^6`, `paddedHex _ 6` has exactly six characters, all of
them uppercase hex digits, and denotes the value back. -/
theorem paddedHex6_spec (v : Nat) (hv : v < 16 ^ 6) :
    (paddedHex v 6).length = 6 ∧
      (∀ c ∈ paddedHex v 6, c ∈ upperHexDigits) ∧
      hexValue (paddedHex v 6) = v := by
  have hlen := toHexChars_length_le v 6 (by omega) hv
  refine ⟨?_, ?_, ?_⟩
  · simp only [paddedHex, jsPadStart, List.length_map, List.length_append,
      List.length_replicate]
    omega
  · intro c hc
    simp only [paddedHex, jsPadStart, List.map_append, List.mem_append] at hc
    rcases hc with hc | hc
    · rcases List.mem_map.mp hc with ⟨d, hd, rfl⟩
      rcases List.eq_of_mem_replicate hd with rfl
      decide
    · rcases List.mem_map.mp hc with ⟨d, hd, rfl⟩
      exact toHexChars_mem_upper v d hd
  · have hz : Char.toUpper '0' = '0' := by decide
    simp only [paddedHex, jsPadStart, List.map_append, List.map_replicate, hz]
    rw [hexValue_replicate_zero_append]
    exact hexValue_map_toUpper_toHexChars v

theorem getD_le_255 (gt : List Nat) (hgt : ∀ x ∈ gt, x ≤ 255) (i : Nat) :
    gt.getD i 0 ≤ 255 := by
  rcases Nat.lt_or_ge i gt.length with h | h
  · rw [List.getD_eq_getElem gt 0 h]
    exact hgt _ (List.getElem_mem h)
  · rw [List.getD_eq_default gt 0 h]
    omega

theorem packPixel_lt (gt : List Nat) (hgt : ∀ x ∈ gt, x ≤ 255) (p : Nat × Nat × Nat) :
    packPixel gt p < 16 ^ 6 := by
  have h1 := getD_le_255 gt hgt p.1
  have h2 := getD_le_255 gt hgt p.2.1
  have h3 := getD_le_255 gt hgt p.2.2
  have e : (16 : Nat) ^ 6 = 2 ^ 24 := by norm_num
  rw [packPixel, e]
  apply Nat.or_lt_two_pow
  · apply Nat.or_lt_two_pow
    · rw [Nat.shiftLeft_eq]
      omega
    · rw [Nat.shiftLeft_eq]
      omega
  · omega

theorem rowChars_length (gt : List Nat) (hgt : ∀ x ∈ gt, x ≤ 255)
    (row : List (Nat × Nat × Nat)) (hrow : row.length = 16) :
    (rowChars gt row).length = 96 := by
  rw [rowChars, List.length_flatten, List.map_map]
  have h : (row.map (List.length ∘ fun p => paddedHex (packPixel gt p) 6)) =
      row.map (fun _ => 6) := by
    apply List.map_congr_left
    intro p _
    simp only [Function.comp_apply]
    exact (paddedHex6_spec _ (packPixel_lt gt hgt p)).1
  rw [h, List.map_const', List.sum_replicate, smul_eq_mul, hrow]

theorem flatten_extract {α : Type} (k : Nat) :
    ∀ (ls : List (List α)), (∀ x ∈ ls, x.length = k) →
      ∀ j, j < ls.length → (ls.flatten.drop (k * j)).take k = ls.getD j [] := by
  intro ls
  induction ls with
  | nil =>
      intro _ j hj
      simp at hj
  | cons a t ih =>
      intro hlen j hj
      cases j with
      | zero =>
          have ha : a.length = k := hlen a (by simp)
          simp only [Nat.mul_zero, List.drop_zero, List.flatten_cons, List.getD_cons_zero]
          rw [← ha, List.take_left]
      | succ j =>
          have ha : a.length = k := hlen a (by simp)
          have hmul : k * (j + 1) = a.length + k * j := by
            rw [ha]
            ring
          rw [List.flatten_cons, hmul, List.drop_append, List.getD_cons_succ]
          exact ih (fun x hx => hlen x (by simp [hx])) j (by simpa using hj)

/-- C2: for a 16×16 grid of RGB triples with channels in `[0, 255]` and a
256-entry gamma table with entries in `[0, 255]`, the encoded frame has
exactly 16 row strings of exactly 96 uppercase hexadecimal characters each,
and the 6-character group for pixel `j` of row `i` is the padded hex encoding
of `gammaTable[R] << 16 ||| gammaTable[G] << 8 ||| gammaTable[B]`, which has
six uppercase hex digits and denotes exactly that packed value. -/
theorem C2_frame_encoding (gt : List Nat) (pixels : List (List (Nat × Nat × Nat)))
    (_hgt_len : gt.length = 256) (hgt : ∀ x ∈ gt, x ≤ 255)
    (hrows : pixels.length = 16)
    (hcols : ∀ row ∈ pixels, row.length = 16)
    (_hchan : ∀ row ∈ pixels, ∀ p ∈ row, p.1 ≤ 255 ∧ p.2.1 ≤ 255 ∧ p.2.2 ≤ 255) :
    (frameRows gt pixels).length = 16 ∧
      (∀ s ∈ frameRows gt pixels, s.length = 96 ∧ ∀ c ∈ s.data, c ∈ upperHexDigits) ∧
      (∀ i, i < 16 → ∀ j, j < 16 →
        (((frameRows gt pixels).getD i "").data.drop (6 * j)).take 6 =
          paddedHex (packPixel gt ((pixels.getD i []).getD j (0, 0, 0))) 6) ∧
      (∀ p : Nat × Nat × Nat,
        (paddedHex (packPixel gt p) 6).length = 6 ∧
          hexValue (paddedHex (packPixel gt p) 6) = packPixel gt p) := by
  refine ⟨?_, ?_, ?_, ?_⟩
  · simp [frameRows, hrows]
  · intro s hs
    rcases List.mem_map.mp hs with ⟨row, hrow, rfl⟩
    constructor
    · show (rowChars gt row).length = 96
      exact rowChars_length gt hgt row (hcols row hrow)
    · intro c hc
      rcases List.mem_flatten.mp hc with ⟨l, hl, hcl⟩
      rcases List.mem_map.mp hl with ⟨p, _, rfl⟩
      exact (paddedHex6_spec _ (packPixel_lt gt hgt p)).2.1 c hcl
  · intro i hi j hj
    have hi' : i < pixels.length := by omega
    have hi'' : i < (frameRows gt pixels).length := by simp [frameRows]; omega
    rw [List.getD_eq_getElem _ _ hi'']
    have hrow : (frameRows gt pixels)[i] = ⟨rowChars gt pixels[i]⟩ := by
      simp [frameRows]
    rw [hrow]
    show ((rowChars gt pixels[i]).drop (6 * j)).take 6 = _
    have hcols' : pixels[i].length = 16 := hcols _ (List.getElem_mem hi')
    have hj' : j < (pixels[i].map (fun p => paddedHex (packPixel gt p) 6)).length := by
      simp [hcols']
      omega
    rw [rowChars, flatten_extract 6 _
      (by
        intro x hx
        rcases List.mem_map.mp hx with ⟨p, _, rfl⟩
        exact (paddedHex6_spec _ (packPixel_lt gt hgt p)).1)
      j hj']
    rw [List.getD_eq_getElem _ _ hj', List.getElem_map,
      List.getD_eq_getElem _ _ hi', List.getD_eq_getElem _ _ (by omega)]
  · intro p
    exact ⟨(paddedHex6_spec _ (packPixel_lt gt hgt p)).1,
      (paddedHex6_spec _ (packPixel_lt gt hgt p)).2.2⟩

/-- Witness for C2 at a concrete all-(1,2,3) grid and the constant-7 table. -/
theorem C2_frame_encoding_witness :
    (frameRows (List.replicate 256 7) (List.replicate 16 (List.replicate 16 (1, 2, 3)))).length
      = 16 :=
  (C2_frame_encoding (List.replicate 256 7)
    (List.replicate 16 (List.replicate 16 (1, 2, 3)))
    (List.length_replicate 256 _)
    (by intro x hx; rcases List.eq_of_mem_replicate hx with rfl; omega)
    (List.length_replicate 16 _)
    (by intro row hrow; rcases List.eq_of_mem_replicate hrow with rfl
        exact List.length_replicate 16 _)
    (by
      intro row hrow p hp
      rcases List.eq_of_mem_replicate hrow with rfl
      rcases List.eq_of_mem_replicate hp with rfl
      exact ⟨by decide, by decide, by decide⟩)).1

theorem jsSplit_ne_nil (sep : Char) (l : List Char) : jsSplit sep l ≠ [] := by
  cases l with
  | nil => simp [jsSplit]
  | cons c rest =>
      rw [jsSplit]
      split
      · simp
      · split <;> simp

theorem getLastD_mem {α : Type} (l : List α) (d : α) (h : l ≠ []) :
    l.getLastD d ∈ l := by
  induction l generalizing d with
  | nil => exact absurd rfl h
  | cons a t ih =>
      rw [List.getLastD_cons]
      cases t with
      | nil => simp [List.getLastD]
      | cons b u => exact List.mem_cons_of_mem a (ih a (by simp))

theorem jsSplit_sep_not_mem (sep : Char) (l : List Char) :
    ∀ s ∈ jsSplit sep l, sep ∉ s := by
  induction l with
  | nil =>
      intro s hs
      simp [jsSplit] at hs
      simp [hs]
  | cons c rest ih =>
      intro s hs
      rw [jsSplit] at hs
      split at hs
      · rcases List.mem_cons.mp hs with rfl | hmem
        · simp
        · exact ih s hmem
      · rename_i hc
        rcases h : jsSplit sep rest with _ | ⟨h0, hs0⟩
        · exact absurd h (jsSplit_ne_nil sep rest)
        · rw [h] at hs
          rcases List.mem_cons.mp hs with rfl | hmem
          · intro hcon
            rcases List.mem_cons.mp hcon with rfl | hmem2
            · exact hc rfl
            · exact ih h0 (h ▸ List.mem_cons_self h0 hs0) hmem2
          · exact ih s (h ▸ List.mem_cons_of_mem h0 hmem)

theorem jsSplit_sep_free (sep : Char) (l : List Char) (h : sep ∉ l) :
    jsSplit sep l = [l] := by
  induction l with
  | nil => rfl
  | cons c rest ih =>
      rw [jsSplit]
      have hc : ¬c = sep := fun hc => h (hc ▸ List.mem_cons_self c rest)
      rw [if_neg hc, ih (fun hm => h (List.mem_cons_of_mem c hm))]

theorem jsSplit_append_sep (sep : Char) (l t : List Char) (h : sep ∉ l) :
    jsSplit sep (l ++ sep :: t) = l :: jsSplit sep t := by
  induction l with
  | nil => simp [jsSplit]
  | cons c rest ih =>
      have hc : ¬c = sep := fun hc => h (hc ▸ List.mem_cons_self c rest)
      rw [List.cons_append, jsSplit, if_neg hc,
        ih (fun hm => h (List.mem_cons_of_mem c hm))]

theorem jsSplit_joinSep (sep : Char) (lines : List (List Char))
    (hne : lines ≠ []) (hfree : ∀ l ∈ lines, sep ∉ l) :
    jsSplit sep (joinSep sep lines) = lines := by
  induction lines with
  | nil => exact absurd rfl hne
  | cons l rest ih =>
      cases rest with
      | nil =>
          rw [joinSep]
          exact jsSplit_sep_free sep l (hfree l (by simp))
      | cons l2 rest2 =>
          show jsSplit sep (l ++ sep :: joinSep sep (l2 :: rest2)) = _
          rw [jsSplit_append_sep sep l _ (hfree l (by simp)),
            ih (by simp) (fun x hx => hfree x (List.mem_cons_of_mem l hx))]

theorem jsSplit_cons_of_sep (sep : Char) (l : List Char) :
    jsSplit sep (sep :: l) = [] :: jsSplit sep l := by
  rw [jsSplit, if_pos rfl]

theorem jsSplit_cons_of_ne (sep c : Char) (hc : ¬c = sep) (l : List Char) :
    jsSplit sep (c :: l) =
      (c :: (jsSplit sep l).headD []) :: (jsSplit sep l).tail := by
  rw [jsSplit, if_neg hc]
  rcases h : jsSplit sep l with _ | ⟨s, ss⟩
  · exact absurd h (jsSplit_ne_nil sep l)
  · simp

theorem getLastD_irrel {α : Type} (l : List α) (h : l ≠ []) (d d' : α) :
    l.getLastD d = l.getLastD d' := by
  cases l with
  | nil => exact absurd rfl h
  | cons a t => rw [List.getLastD_cons, List.getLastD_cons]

/-- Splitting a concatenation: the complete segments of `A` are final, and the
trailing segment of `A` recombines with `y`. -/
theorem jsSplit_append (sep : Char) (A y : List Char) :
    jsSplit sep (A ++ y) =
      (jsSplit sep A).dropLast
        ++ jsSplit sep ((jsSplit sep A).getLastD [] ++ y) := by
  induction A with
  | nil => simp [jsSplit, List.getLastD]
  | cons c A' ih =>
      by_cases hc : c = sep
      · rw [hc, List.cons_append, jsSplit_cons_of_sep, jsSplit_cons_of_sep]
        rcases h : jsSplit sep A' with _ | ⟨s, ss⟩
        · exact absurd h (jsSplit_ne_nil sep A')
        · rw [h] at ih
          rw [ih, List.dropLast_cons_of_ne_nil (List.cons_ne_nil s ss),
            List.getLastD_cons ([] : List Char) ([] : List Char) (s :: ss),
            List.cons_append]
      · rw [List.cons_append, jsSplit_cons_of_ne sep c hc,
          jsSplit_cons_of_ne sep c hc A', ih]
        rcases h : jsSplit sep A' with _ | ⟨s0, ss0⟩
        · exact absurd h (jsSplit_ne_nil sep A')
        · cases ss0 with
          | nil =>
              simp only [List.dropLast_single, List.getLastD_cons,
                List.getLastD_nil, List.nil_append, List.headD_cons,
                List.tail_cons]
              rw [List.cons_append, jsSplit_cons_of_ne sep c hc]
          | cons b u =>
              simp [List.getLastD_cons, List.dropLast_cons_of_ne_nil,
                List.cons_append]

theorem lbtRun_spec (sep : Char) :
    ∀ (chunks : List (List Char)) (cont : List Char), sep ∉ cont →
      (lbtRun sep cont chunks).1 ++ [(lbtRun sep cont chunks).2] =
          jsSplit sep (cont ++ chunks.flatten) ∧
        sep ∉ (lbtRun sep cont chunks).2 := by
  intro chunks
  induction chunks with
  | nil =>
      intro cont hc
      constructor
      · simp [lbtRun, jsSplit_sep_free sep cont hc]
      · exact hc
  | cons chunk rest ih =>
      intro cont _
      have hc' : sep ∉ (jsSplit sep (cont ++ chunk)).getLastD [] :=
        jsSplit_sep_not_mem sep (cont ++ chunk) _
          (getLastD_mem _ _ (jsSplit_ne_nil _ _))
      obtain ⟨ih1, ih2⟩ :=
        ih ((jsSplit sep (cont ++ chunk)).getLastD []) hc'
      constructor
      · show ((lbtTransform sep cont chunk).1
              ++ (lbtRun sep (lbtTransform sep cont chunk).2 rest).1)
            ++ [(lbtRun sep (lbtTransform sep cont chunk).2 rest).2] =
            jsSplit sep (cont ++ (chunk :: rest).flatten)
        rw [List.flatten_cons, ← List.append_assoc cont chunk, jsSplit_append,
          List.append_assoc]
        show _ ++ (_ ++ _) = _
        rw [lbtTransform]
        rw [ih1]
      · show sep ∉ (lbtRun sep (lbtTransform sep cont chunk).2 rest).2
        rw [lbtTransform]
        exact ih2

theorem lbtSession_eq_jsSplit (sep : Char) (chunks : List (List Char)) :
    lbtSession sep chunks = jsSplit sep chunks.flatten := by
  have h := (lbtRun_spec sep chunks [] (by simp)).1
  simpa [lbtSession] using h

/-- C3 (amended to `N ≥ 1`): feeding the transformer any chunking of `N ≥ 1`
delimiter-free lines joined by the delimiter, followed by a flush, emits
exactly the original lines in order — independently of the chunk
boundaries. -/
theorem C3_line_framing (sep : Char) (lines : List (List Char))
    (hne : lines ≠ []) (hfree : ∀ l ∈ lines, sep ∉ l)
    (chunks : List (List Char)) (hchunks : chunks.flatten = joinSep sep lines) :
    lbtSession sep chunks = lines := by
  rw [lbtSession_eq_jsSplit, hchunks, jsSplit_joinSep sep lines hne hfree]

/-- Witness for C3: the two lines `"a"` and `"bc"`, chunked as
`"a\nb"`, `"c"`. -/
theorem C3_line_framing_witness :
    lbtSession '\n' [['a', '\n', 'b'], ['c']] = [['a'], ['b', 'c']] :=
  C3_line_framing '\n' [['a'], ['b', 'c']] (by decide)
    (by decide) [['a', '\n', 'b'], ['c']] (by decide)

/-- C3 counterexample: for `N = 0` lines, feeding the transformer their join
(the empty string) and flushing emits one empty line, not zero lines. -/
theorem C3_counterexample :
    lbtSession '\n' [joinSep '\n' []] = [[]] ∧
      lbtSession '\n' [joinSep '\n' []] ≠ ([] : List (List Char)) := by
  decide

theorem gammaTableOf_getD (e : ℝ) (i : Nat) (hi : i < 256) :
    (gammaTableOf e).getD i 0 = round ((255 : ℝ) * ((i : ℝ) / 255) ^ e) := by
  rw [gammaTableOf, List.getD_eq_getElem _ _ (by simpa using hi),
    List.getElem_map, List.getElem_range]

theorem round_mono_real {x y : ℝ} (h : x ≤ y) : round x ≤ round y := by
  rw [round_eq, round_eq]
  exact Int.floor_le_floor (by linarith)

/-- Length, zero entry and monotonicity of `gammaTableOf e` for any positive
exponent. -/
theorem gammaTableOf_spec (e : ℝ) (he : 0 < e) :
    (gammaTableOf e).length = 256 ∧
      (gammaTableOf e).getD 0 0 = 0 ∧
      (∀ i j, i ≤ j → j < 256 →
        (gammaTableOf e).getD i 0 ≤ (gammaTableOf e).getD j 0) := by
  refine ⟨by simp [gammaTableOf], ?_, ?_⟩
  · rw [gammaTableOf_getD e 0 (by omega)]
    norm_num
    rw [Real.zero_rpow (ne_of_gt he)]
    simp
  · intro i j hij hj
    rw [gammaTableOf_getD e i (by omega), gammaTableOf_getD e j (by omega)]
    apply round_mono_real
    have hbase : ((i : ℝ) / 255) ≤ ((j : ℝ) / 255) := by
      apply div_le_div_of_nonneg_right ?_ (by norm_num)
      exact_mod_cast hij
    have hpow : ((i : ℝ) / 255) ^ e ≤ ((j : ℝ) / 255) ^ e :=
      Real.rpow_le_rpow (by positivity) hbase (le_of_lt he)
    linarith

/-- C4: for every slider position of the display-gamma variant (gamma in
`[0.5, 3.0]`) and every positive slider value of the inverse-exponent
variant, the rebuilt gamma table has 256 entries, entry 0 is 0, and the
entries are monotonically non-decreasing. -/
theorem C4_gammaTable_monotone (v w : ℝ) (hv0 : 0 ≤ v) (_hv1 : v ≤ 100)
    (hw : 0 < w) :
    ((updateGamma1 v).length = 256 ∧
        (updateGamma1 v).getD 0 0 = 0 ∧
        (∀ i j, i ≤ j → j < 256 →
          (updateGamma1 v).getD i 0 ≤ (updateGamma1 v).getD j 0)) ∧
      ((updateGamma2 w).length = 256 ∧
        (updateGamma2 w).getD 0 0 = 0 ∧
        (∀ i j, i ≤ j → j < 256 →
          (updateGamma2 w).getD i 0 ≤ (updateGamma2 w).getD j 0)) := by
  constructor
  · have hpos : 0 < gammaValueFromSlider v := by
      rw [gammaValueFromSlider, MIN_GAMMA, MAX_GAMMA]
      nlinarith
    exact gammaTableOf_spec _ hpos
  · have hpos : 0 < 100 / w := by positivity
    exact gammaTableOf_spec _ hpos

/-- Witness for C4 at slider values 60 (variant 1) and 200 (variant 2). -/
theorem C4_gammaTable_monotone_witness :
    (updateGamma1 60).length = 256 ∧ (updateGamma2 200).length = 256 :=
  ⟨(C4_gammaTable_monotone 60 200 (by norm_num) (by norm_num) (by norm_num)).1.1,
    (C4_gammaTable_monotone 60 200 (by norm_num) (by norm_num) (by norm_num)).2.1⟩

theorem updateGamma1_at_60_128 : (updateGamma1 60).getD 128 0 = 64 := by
  rw [updateGamma1, gammaTableOf_getD _ 128 (by omega)]
  have hg : gammaValueFromSlider 60 = 2 := by
    rw [gammaValueFromSlider, MIN_GAMMA, MAX_GAMMA]
    norm_num
  rw [hg, show (2 : ℝ) = ((2 : ℕ) : ℝ) by norm_num, Real.rpow_natCast]
  have hv : (255 : ℝ) * (((128 : ℕ) : ℝ) / 255) ^ (2 : ℕ) = 16384 / 255 := by
    norm_num
  rw [hv, round_eq]
  apply Int.floor_eq_iff.mpr
  constructor <;> norm_num

theorem updateGamma2_at_200_128 : (updateGamma2 200).getD 128 0 = 181 := by
  rw [updateGamma2, gammaTableOf_getD _ 128 (by omega)]
  have he : (100 : ℝ) / 200 = 1 / 2 := by norm_num
  have hc : (((128 : ℕ) : ℝ) / 255) = (128 : ℝ) / 255 := by norm_num
  rw [he, hc, ← Real.sqrt_eq_rpow]
  have h1 : ((361 : ℝ) / 510) ≤ Real.sqrt ((128 : ℝ) / 255) := by
    rw [Real.le_sqrt (by norm_num) (by norm_num)]
    norm_num
  have h2 : Real.sqrt ((128 : ℝ) / 255) < 363 / 510 := by
    rw [Real.sqrt_lt' (by norm_num)]
    norm_num
  rw [round_eq]
  apply Int.floor_eq_iff.mpr
  constructor
  · push_cast
    linarith
  · push_cast
    linarith

theorem round_rpow2_128 :
    round ((255 : ℝ) * (((128 : ℕ) : ℝ) / 255) ^ (2 : ℝ)) = 64 := by
  rw [show (2 : ℝ) = ((2 : ℕ) : ℝ) by norm_num, Real.rpow_natCast]
  have hv : (255 : ℝ) * (((128 : ℕ) : ℝ) / 255) ^ (2 : ℕ) = 16384 / 255 := by
    norm_num
  rw [hv, round_eq]
  apply Int.floor_eq_iff.mpr
  constructor <;> norm_num

/-- C5 counterexample: at displayed gamma 2.0 and index 128, variant 2's
builder yields 181 while the claimed formula `round(255*(128/255)^2)`
yields 64; the two builders do not implement one consistent convention. -/
theorem C5_counterexample : ¬gammaConventionConsistent := by
  intro h
  have h2 := (h 2 (by norm_num) 128 (by omega)).2
  rw [displayedTable2, show (100 : ℝ) * 2 = 200 by norm_num,
    updateGamma2_at_200_128, round_rpow2_128] at h2
  exact absurd h2 (by norm_num)

/-- C5 (amended): variant 1's table entry `i` is
`round(255*(i/255)^gammaValueFromSlider(v))` — the exponent it displays —
while variant 2's entry is `round(255*(i/255)^(100/v))`, the *reciprocal* of
its displayed gamma `v/100`; consequently at the same displayed gamma 2.0 the
two builders produce different tables (entry 128: 64 versus 181). -/
theorem C5_gamma_conventions (v : ℝ) (i : ℕ) (hi : i < 256) :
    (updateGamma1 v).getD i 0 =
        round ((255 : ℝ) * ((i : ℝ) / 255) ^ gammaValueFromSlider v) ∧
      (updateGamma2 v).getD i 0 =
        round ((255 : ℝ) * ((i : ℝ) / 255) ^ ((100 : ℝ) / v)) ∧
      displayedTable1 2 ≠ displayedTable2 2 := by
  refine ⟨gammaTableOf_getD _ i hi, gammaTableOf_getD _ i hi, ?_⟩
  intro heq
  have h1 : (displayedTable1 2).getD 128 0 = 64 := by
    have hs : sliderValueFromGamma 2 = 60 := by
      rw [sliderValueFromGamma, MIN_GAMMA, MAX_GAMMA]
      norm_num
    rw [displayedTable1, hs, updateGamma1_at_60_128]
  have h2 : (displayedTable2 2).getD 128 0 = 181 := by
    rw [displayedTable2, show (100 : ℝ) * 2 = 200 by norm_num,
      updateGamma2_at_200_128]
  rw [heq, h2] at h1
  exact absurd h1 (by norm_num)

/-- Witness for C5's amended theorem at slider value 60, index 128. -/
theorem C5_gamma_conventions_witness :
    (updateGamma1 60).getD 128 0 =
      round ((255 : ℝ) * (((128 : ℕ) : ℝ) / 255) ^ gammaValueFromSlider 60) :=
  (C5_gamma_conventions 60 128 (by omega)).1

/-- C1: sending an Animation with `F ≥ 1` frames, each holding exactly 16
encoded rows, writes exactly `1 + F*(1+16) + 2` newline-terminated lines, in
the exact order `ANM`, then per frame `FRM` followed by its 16 `RGB` rows in
order, then `DON`, then `NXT`, with nothing else interleaved. -/
theorem C1_sendAnimation_wire (anim : Animation)
    (_hF : 1 ≤ anim.frames.length)
    (hrows : ∀ f ∈ anim.frames, f.rows.length = 16) :
    sendAnimation anim = expectedWire anim ∧
      (sendAnimation anim).length = 1 + anim.frames.length * (1 + 16) + 2 := by
  refine ⟨sendAnimation_eq_expectedWire anim, ?_⟩
  rw [sendAnimation_eq_expectedWire anim]
  exact expectedWire_length anim hrows

/-- Witness for C1 at a concrete one-frame animation. -/
theorem C1_sendAnimation_wire_witness :
    sendAnimation ⟨600000, [⟨1000, List.replicate 16 "00"⟩]⟩ =
        expectedWire ⟨600000, [⟨1000, List.replicate 16 "00"⟩]⟩ ∧
      (sendAnimation ⟨600000, [⟨1000, List.replicate 16 "00"⟩]⟩).length =
        1 + (1 : Nat) * (1 + 16) + 2 :=
  C1_sendAnimation_wire ⟨600000, [⟨1000, List.replicate 16 "00"⟩]⟩
    (by decide) (by intro f hf; simp at hf; simp [hf])

theorem sendImage_length (w h : Nat) (imgPixel : Nat → Nat → Nat × Nat × Nat)
    (gt : List Nat) : (sendImage w h imgPixel gt).length = 20 := by
  rw [sendImage, List.length_append, List.length_append, List.length_flatMap]
  have h1 : ((List.range ROWS).map (List.length ∘ fun r =>
      writeToStream ["RGB " ++ String.mk (sendImageRowChars gt w h imgPixel r)])) =
      (List.range ROWS).map (fun _ => 1) := by
    apply List.map_congr_left
    intro r _
    simp [writeToStream]
  rw [h1, List.map_const', List.sum_replicate, smul_eq_mul]
  simp [writeToStream, ROWS, COLS]

/-- C6 (amended): a GIF whose logical screen descriptor is not 16×16 is
rejected before any line is written — `sendGifAnimation` produces no traffic
at all — but the static-image path has no dimension validation:
`sendImage` writes its 20 protocol lines whatever the image's size. -/
theorem C6_dimension_validation (gif : Gif) (gt : List Nat)
    (hdim : gif.lsdWidth ≠ 16 ∨ gif.lsdHeight ≠ 16) :
    sendGifAnimation gif gt = [] ∧
      ∀ (w h : Nat) (imgPixel : Nat → Nat → Nat × Nat × Nat) (gt2 : List Nat),
        (sendImage w h imgPixel gt2).length = 20 := by
  constructor
  · rw [sendGifAnimation, if_pos]
    simpa [ROWS, COLS] using hdim
  · intro w h imgPixel gt2
    exact sendImage_length w h imgPixel gt2

/-- Witness for C6's amended theorem: a 8×17 GIF is rejected outright. -/
theorem C6_dimension_validation_witness :
    sendGifAnimation ⟨8, 17, []⟩ [] = [] :=
  (C6_dimension_validation ⟨8, 17, []⟩ [] (by decide)).1

/-- C6 counterexample: an 8×8 static image (dimensions ≠ 16×16) still causes
20 outbound protocol lines — not zero — because `sendImage` never checks the
image's dimensions. -/
theorem C6_counterexample :
    (sendImage 8 8 (fun _ _ => (0, 0, 0)) []).length = 20 ∧
      (sendImage 8 8 (fun _ _ => (0, 0, 0)) []).length ≠ 0 := by
  have h := sendImage_length 8 8 (fun _ _ => (0, 0, 0)) []
  exact ⟨h, by omega⟩

/-- C9 counterexample: after a full-screen frame and then a 1×1 patch frame,
cell (0,0) — outside the second patch — is cleared (`none`), not the
`some (1,1,1)` that compositing onto the previous grid state would leave. -/
theorem C9_counterexample :
    gifGridAfter [gifFullFrame, gifDotFrame] 0 0 = none ∧
      specCompositeAfter [gifFullFrame, gifDotFrame] 0 0 = some (1, 1, 1) ∧
      gifGridAfter [gifFullFrame, gifDotFrame] 0 0 ≠
        specCompositeAfter [gifFullFrame, gifDotFrame] 0 0 := by
  have h1 : gifGridAfter [gifFullFrame, gifDotFrame] 0 0 = none := rfl
  have h2 : specCompositeAfter [gifFullFrame, gifDotFrame] 0 0 = some (1, 1, 1) := rfl
  exact ⟨h1, h2, by rw [h1, h2]; simp⟩

/-- C9 (amended): `sendGifAnimation` clears the grid to zero before drawing
each patch, so after any frame the grid depends only on that frame — cells
inside its patch hold the patch pixel and every cell outside it holds the
cleared value, regardless of what previous frames drew. -/
theorem C9_grid_cleared_each_frame (frames : List GifFrame) (f : GifFrame)
    (r c : Nat) :
    gifGridAfter (frames ++ [f]) r c =
      if f.top ≤ r ∧ r < f.top + f.height ∧ f.left ≤ c ∧ c < f.left + f.width then
        some (patchPixel f (r - f.top) (c - f.left))
      else none := by
  rw [gifGridAfter, List.foldl_append]
  rfl

/-- C7 (code bug): the first `disconnect` on an active connection succeeds,
cancelling the reader, closing the writer and the port and clearing every
handle — but a second `disconnect` throws a TypeError instead of being a
no-op: `writeToStream('RST')` dereferences the now-null `outputStream` (and
`port.close()` would dereference the null `port`). -/
theorem C7_double_disconnect_throws :
    disconnect connectedState = .ok clearedState ∧
      disconnect clearedState = .error .typeError := by
  constructor <;> rfl

theorem ccByte_zero : ccByte 0 = 0 := by
  rw [ccByte]
  norm_num

theorem toHexChars_zero : toHexChars 0 = ['0'] := by
  rw [toHexChars]
  norm_num
  rfl

/-- C8 (code bug): with all three sliders at 0, the transmitted calibration
line is `CLC 000` — each channel contributes a single unpadded hex digit
because the swapped `padStart('0', 2)` arguments make the pad width 0 — so
the argument is not the six-character `RRGGBB` the claim (and the device
protocol) requires. -/
theorem C8_updateColorCorrection_unpadded :
    updateColorCorrection 0 0 0 = "CLC 000" ∧
      (updateColorCorrection 0 0 0).length ≠ "CLC RRGGBB".length := by
  have h : ccChannel 0 = ['0'] := by
    rw [ccChannel, ccByte_zero]
    rw [show ((0 : ℤ).toNat) = 0 from rfl, toHexChars_zero]
    rfl
  rw [updateColorCorrection, h]
  exact ⟨rfl, by decide⟩

theorem clockGridOn_eq {α : Type} (fg bg colon : α) :
    digitalClockGrid 1 4 0 5 fg bg colon =
      [[bg, bg, bg, bg, bg, bg, bg, bg, bg, bg, bg, bg, bg, bg, bg, bg],
       [bg, bg, bg, bg, bg, bg, bg, bg, bg, bg, bg, bg, bg, bg, bg, bg],
       [bg, bg, bg, bg, bg, bg, bg, bg, bg, bg, bg, bg, bg, bg, bg, bg],
       [bg, bg, bg, bg, bg, bg, bg, bg, bg, bg, bg, bg, bg, bg, bg, bg],
       [bg, bg, bg, bg, bg, bg, bg, bg, bg, bg, bg, bg, bg, bg, bg, bg],
       [bg, fg, bg, bg, fg, bg, fg, bg, bg, fg, fg, fg, bg, fg, fg, fg],
       [fg, fg, bg, bg, fg, bg, fg, colon, colon, fg, bg, fg, bg, fg, bg, bg],
       [bg, fg, bg, bg, fg, fg, fg, bg, bg, fg, bg, fg, bg, fg, fg, bg],
       [bg, fg, bg, bg, bg, bg, fg, colon, colon, fg, bg, fg, bg, bg, bg, fg],
       [fg, fg, fg, bg, bg, bg, fg, bg, bg, fg, fg, fg, bg, fg, fg, bg],
       [bg, bg, bg, bg, bg, bg, bg, bg, bg, bg, bg, bg, bg, bg, bg, bg],
       [bg, bg, bg, bg, bg, bg, bg, bg, bg, bg, bg, bg, bg, bg, bg, bg],
       [bg, bg, bg, bg, bg, bg, bg, bg, bg, bg, bg, bg, bg, bg, bg, bg],
       [bg, bg, bg, bg, bg, bg, bg, bg, bg, bg, bg, bg, bg, bg, bg, bg],
       [bg, bg, bg, bg, bg, bg, bg, bg, bg, bg, bg, bg, bg, bg, bg, bg],
       [bg, bg, bg, bg, bg, bg, bg, bg, bg, bg, bg, bg, bg, bg, bg, bg]] := rfl

theorem clockGridOff_eq {α : Type} (fg bg : α) :
    digitalClockGrid 1 4 0 5 fg bg bg =
      [[bg, bg, bg, bg, bg, bg, bg, bg, bg, bg, bg, bg, bg, bg, bg, bg],
       [bg, bg, bg, bg, bg, bg, bg, bg, bg, bg, bg, bg, bg, bg, bg, bg],
       [bg, bg, bg, bg, bg, bg, bg, bg, bg, bg, bg, bg, bg, bg, bg, bg],
       [bg, bg, bg, bg, bg, bg, bg, bg, bg, bg, bg, bg, bg, bg, bg, bg],
       [bg, bg, bg, bg, bg, bg, bg, bg, bg, bg, bg, bg, bg, bg, bg, bg],
       [bg, fg, bg, bg, fg, bg, fg, bg, bg, fg, fg, fg, bg, fg, fg, fg],
       [fg, fg, bg, bg, fg, bg, fg, bg, bg, fg, bg, fg, bg, fg, bg, bg],
       [bg, fg, bg, bg, fg, fg, fg, bg, bg, fg, bg, fg, bg, fg, fg, bg],
       [bg, fg, bg, bg, bg, bg, fg, bg, bg, fg, bg, fg, bg, bg, bg, fg],
       [fg, fg, fg, bg, bg, bg, fg, bg, bg, fg, fg, fg, bg, fg, fg, bg],
       [bg, bg, bg, bg, bg, bg, bg, bg, bg, bg, bg, bg, bg, bg, bg, bg],
       [bg, bg, bg, bg, bg, bg, bg, bg, bg, bg, bg, bg, bg, bg, bg, bg],
       [bg, bg, bg, bg, bg, bg, bg, bg, bg, bg, bg, bg, bg, bg, bg, bg],
       [bg, bg, bg, bg, bg, bg, bg, bg, bg, bg, bg, bg, bg, bg, bg, bg],
       [bg, bg, bg, bg, bg, bg, bg, bg, bg, bg, bg, bg, bg, bg, bg, bg],
       [bg, bg, bg, bg, bg, bg, bg, bg, bg, bg, bg, bg, bg, bg, bg, bg]] := rfl

/-- C10: for digits 1, 4, 0, 5 (14:05) with the colon color distinct from
the background, the colon-visible and colon-hidden grids agree at every cell
except the two colon-column cells (columns 7 and 8) of the odd glyph rows
(physical rows 6 and 8), where the visible grid holds the colon color and
the hidden grid the background. -/
theorem C10_clock_colon_cells {α : Type} (fg bg colon : α) (hcb : colon ≠ bg)
    (r c : Nat) (hr : r < 16) (hc : c < 16) :
    ((digitalClockGrid 1 4 0 5 fg bg colon).getD r []).getD c bg =
        (if (r = 6 ∨ r = 8) ∧ (c = 7 ∨ c = 8) then colon
         else ((digitalClockGrid 1 4 0 5 fg bg bg).getD r []).getD c bg) ∧
      (((r = 6 ∨ r = 8) ∧ (c = 7 ∨ c = 8)) →
        ((digitalClockGrid 1 4 0 5 fg bg bg).getD r []).getD c bg = bg ∧
        ((digitalClockGrid 1 4 0 5 fg bg colon).getD r []).getD c bg ≠
          ((digitalClockGrid 1 4 0 5 fg bg bg).getD r []).getD c bg) := by
  rw [clockGridOn_eq, clockGridOff_eq]
  interval_cases r <;> interval_cases c <;>
    first
      | exact ⟨rfl, fun h => absurd h (by decide)⟩
      | exact ⟨rfl, fun _ => ⟨rfl, hcb⟩⟩

/-- Witness for C10 at a colon cell with concrete distinct colors. -/
theorem C10_clock_colon_cells_witness :
    ((digitalClockGrid 1 4 0 5 (1 : ℕ) 0 2).getD 6 []).getD 7 0 =
      (if ((6 : ℕ) = 6 ∨ (6 : ℕ) = 8) ∧ ((7 : ℕ) = 7 ∨ (7 : ℕ) = 8) then 2
       else ((digitalClockGrid 1 4 0 5 (1 : ℕ) 0 0).getD 6 []).getD 7 0) :=
  (C10_clock_colon_cells (1 : ℕ) 0 2 (by decide) 6 7 (by omega) (by omega)).1

end Blinkenlights

